import Mathlib

set_option autoImplicit false

/-
Shallow embedding of the agent core of nextjs-agent-cli
(src/agent/agent.ts, current Agent class, and src/agent/summarizer.ts).

Conventions of the embedding:
  - JSON-like tool-call argument objects (Record<string, any>) are modeled as
    ordered key-value lists of strings; property lookup takes the first match
    and property assignment rewrites the entry in place, matching JavaScript
    object semantics for objects with unique keys.
  - Promises that may reject are modeled as Except String values; the harness
    try/catch around tool.execute maps a rejection to an error string result.
  - The LLM provider is an oracle parameter: a function from the call index to
    the response (or to an error for the retry client).
  - Date.now() is an oracle Nat parameter (it only feeds tool-call ids).
-/

namespace NAg

/-- Tool-call arguments: the JSON object `call.arguments` as an ordered
key-value list (values modeled as strings). -/
abbrev Args := List (String × String)

/-- JavaScript property read `args[key]` (first matching key, none if absent,
mirroring an `!== undefined` check). -/
def getArg (args : Args) (key : String) : Option String :=
  match args with
  | [] => none
  | (k, v) :: rest => if k = key then some v else getArg rest key

/-- JavaScript `if (args[key] !== undefined) args[key] = val`: rewrite the
entry for `key` in place when present, leave the object untouched otherwise. -/
def setIfPresent (args : Args) (key val : String) : Args :=
  args.map (fun p => if p.1 = key then (p.1, val) else p)

/-- A `functionCall` part payload: `{ name, args }`. -/
structure FunCall where
  name : String
  args : Args
  deriving DecidableEq, Repr

/-- A `functionResponse` part payload: `{ name, response: { result } }`. -/
structure FunResponse where
  name : String
  result : String
  deriving DecidableEq, Repr

/-- A conversation/response `Part`: optional `text`, optional `functionCall`,
optional `functionResponse` (mirroring the SDK Part shape used by agent.ts). -/
structure Part where
  text : Option String := none
  functionCall : Option FunCall := none
  functionResponse : Option FunResponse := none
  deriving DecidableEq, Repr

/-- Message role: the conversation uses only `user` and `model`. -/
inductive Role where
  | user
  | model
  deriving DecidableEq, Repr

/-- One conversation turn (`Content` in agent.ts). -/
structure Message where
  role : Role
  parts : List Part
  deriving DecidableEq, Repr

/-- A tool call extracted from a model response (types.ts `ToolCall`). -/
structure ToolCall where
  id : String
  name : String
  arguments : Args
  deriving DecidableEq, Repr

/-- A registered tool: `execute` models the async function; `Except.error`
models a rejected promise (thrown error message). The parameter schema of
types.ts only feeds the provider request and is not part of the modeled
dispatch behavior. -/
structure Tool where
  name : String
  description : String
  execute : Args → Except String String

/-- One entry of the list returned by `executeTools`: `{ name, result }`. -/
structure ToolResultEntry where
  name : String
  result : String
  deriving DecidableEq, Repr

/-- A model response as consumed by the loop: candidate parts, the finish
reason, and `usageMetadata.promptTokenCount` (none models absent/undefined). -/
structure ModelResponse where
  parts : List Part
  finishReason : Option String := none
  promptTokenCount : Option Nat := none
  deriving DecidableEq, Repr

/-- An error thrown by the provider call: its `.message` (empty string models
a missing message) and its `JSON.stringify` rendering. -/
structure ApiError where
  message : String
  jsonString : String
  deriving DecidableEq, Repr

-- ==================== string containment (JS String.includes) ====================

/-- Does the second character list start with the first one. -/
def charsStart : List Char → List Char → Bool
  | [], _ => true
  | _ :: _, [] => false
  | a :: as, b :: bs => a == b && charsStart as bs

/-- Does the second character list contain the first one as a contiguous run. -/
def charsContain (pat : List Char) : List Char → Bool
  | [] => charsStart pat []
  | c :: cs => charsStart pat (c :: cs) || charsContain pat cs

/-- JavaScript `s.includes(pat)`. -/
def strContains (s pat : String) : Bool := charsContain pat.data s.data

/-- JavaScript `s.toUpperCase()` (per-character uppercasing). -/
def strToUpper (s : String) : String := ⟨s.data.map Char.toUpper⟩

/-- JavaScript `s.toLowerCase()` (per-character lowercasing). -/
def strToLower (s : String) : String := ⟨s.data.map Char.toLower⟩

-- ==================== constants (agent.ts) ====================

def MAX_API_RETRIES : Nat := 5
def INITIAL_RETRY_DELAY_MS : Nat := 2000
def MAX_CONTEXT_TOKENS : Nat := 1000000
/-- `MAX_CONTEXT_TOKENS * COMPRESSION_THRESHOLD` with the float constant 0.7:
the product is exactly 700000, so the comparison is over this Nat. -/
def compressionThresholdTokens : Nat := MAX_CONTEXT_TOKENS * 7 / 10
def KEEP_RECENT_MESSAGES : Nat := 10
def MAX_EMPTY_RESPONSES : Nat := 3
def completionMarker : String := "TASK COMPLETE"

-- ==================== callAIWithRetry ====================

/-- The retryable-error classifier inlined in `callAIWithRetry`. -/
def isRetryableError (e : ApiError) : Bool :=
  strContains e.message "503" ||
  strContains e.message "429" ||
  strContains e.message "overloaded" ||
  strContains e.message "UNAVAILABLE" ||
  strContains e.message "rate limit" ||
  strContains e.message "quota" ||
  strContains e.jsonString "503" ||
  strContains e.jsonString "overloaded"

/-- Observable outcome of `callAIWithRetry`: the returned response or thrown
error, the number of `callAI` attempts performed, and the backoff sleeps (ms)
in the order they happened. -/
structure RetryTrace where
  outcome : Except ApiError ModelResponse
  attemptsMade : Nat
  delays : List Nat
  deriving Repr

/-- The `for (attempt = 1; attempt <= MAX_API_RETRIES; attempt++)` body of
`callAIWithRetry`, walked over the remaining attempt numbers. `callAI` is the
provider oracle indexed by attempt number. -/
def retryLoop (callAI : Nat → Except ApiError ModelResponse) :
    List Nat → Option ApiError → List Nat → Nat → RetryTrace
  | [], lastError, delays, made =>
      ⟨Except.error (lastError.getD ⟨"API call failed after max retries", ""⟩), made, delays⟩
  | attempt :: rest, lastError, delays, made =>
      match callAI attempt with
      | Except.ok r => ⟨Except.ok r, made + 1, delays⟩
      | Except.error e =>
          if isRetryableError e then
            if attempt < MAX_API_RETRIES then
              retryLoop callAI rest (some e)
                (delays ++ [INITIAL_RETRY_DELAY_MS * 2 ^ (attempt - 1)]) (made + 1)
            else
              retryLoop callAI rest (some e) delays (made + 1)
          else
            ⟨Except.error e, made + 1, delays⟩

/-- `callAIWithRetry`: run the attempt loop over attempts 1..MAX_API_RETRIES. -/
def callAIWithRetry (callAI : Nat → Except ApiError ModelResponse) : RetryTrace :=
  retryLoop callAI (List.range' 1 MAX_API_RETRIES) none [] 0

-- ==================== parseResponse ====================

/-- Tool-call id template `call_${Date.now()}_${toolCalls.length}`. -/
def mkCallId (now k : Nat) : String :=
  "call_" ++ toString now ++ "_" ++ toString k

/-- The `for (const part of parts)` loop of `parseResponse`: concatenated text,
tool calls (ids numbered by the count `k` of calls seen so far), and the raw
parts carrying a functionCall, in order. -/
def parseParts (now : Nat) (k : Nat) : List Part → String × List ToolCall × List Part
  | [] => ("", [], [])
  | part :: rest =>
      let t := match part.text with
        | some s => s
        | none => ""
      match part.functionCall with
      | some fc =>
          let r := parseParts now (k + 1) rest
          (t ++ r.1, ⟨mkCallId now k, fc.name, fc.args⟩ :: r.2.1, part :: r.2.2)
      | none =>
          let r := parseParts now k rest
          (t ++ r.1, r.2.1, r.2.2)

/-- Parsed shape of a model response. -/
structure ParsedResponse where
  text : String
  toolCalls : List ToolCall
  functionResponseParts : List Part
  deriving DecidableEq, Repr

/-- `parseResponse`. -/
def parseResponse (now : Nat) (response : ModelResponse) : ParsedResponse :=
  let r := parseParts now 0 response.parts
  ⟨r.1, r.2.1, r.2.2⟩

-- ==================== executeTools ====================

/-- The per-call preparation in `executeTools` (the `preparedCalls` map):
when a project path is active, force the `cwd` and `projectPath` argument
properties (when present) to the active project path. -/
def prepareCall (activeProjectPath : Option String) (call : ToolCall) : ToolCall :=
  match activeProjectPath with
  | none => call
  | some p =>
      { call with arguments := setIfPresent (setIfPresent call.arguments "cwd" p) "projectPath" p }

/-- Dispatch of one prepared call: tool lookup by name, execution, and the
uniform degradation of a missing tool or a thrown error to an error string. -/
def dispatchCall (tools : List Tool) (call : ToolCall) : ToolResultEntry :=
  match tools.find? (fun t => t.name == call.name) with
  | none => ⟨call.name, "Error: Tool \"" ++ call.name ++ "\" not found"⟩
  | some tool =>
      match tool.execute call.arguments with
      | Except.ok r => ⟨call.name, r⟩
      | Except.error msg => ⟨call.name, "Error: " ++ msg⟩

/-- `executeTools`: prepare every call, dispatch all of them, and gather the
results in call order (`Promise.all` keeps input order). -/
def executeTools (tools : List Tool) (active : Option String) (toolCalls : List ToolCall) :
    List ToolResultEntry :=
  (toolCalls.map (prepareCall active)).map (dispatchCall tools)

/-- A concurrent execution of the dispatched calls: `order` is the order in
which the in-flight executions complete; each completion logs its call-issue
index together with its result. -/
def scheduledRun (tools : List Tool) (active : Option String)
    (toolCalls : List ToolCall) (order : List Nat) : List (Nat × ToolResultEntry) :=
  order.filterMap (fun i =>
    (toolCalls.get? i).map (fun c => (i, dispatchCall tools (prepareCall active c))))

/-- Find the logged result for call-issue position `i`. -/
def lookupSlot (i : Nat) : List (Nat × ToolResultEntry) → Option ToolResultEntry
  | [] => none
  | (j, r) :: rest => if j = i then some r else lookupSlot i rest

/-- Gather a completion log back into call-issue order, as `Promise.all` does. -/
def gatherByCallOrder (k : Nat) (log : List (Nat × ToolResultEntry)) :
    List (Option ToolResultEntry) :=
  (List.range k).map (fun i => lookupSlot i log)

-- ==================== conversation compaction ====================

/-- `compressConversation`: keep the first message and the last
KEEP_RECENT_MESSAGES messages; no-op when nothing to compress. -/
def compressConversation (conv : List Message) : List Message :=
  if conv.length ≤ KEEP_RECENT_MESSAGES + 1 then conv
  else
    match conv with
    | [] => conv
    | first :: _ => first :: conv.drop (conv.length - KEEP_RECENT_MESSAGES)

/-- `checkAndCompressConversation`: compress only above the token threshold. -/
def checkAndCompressConversation (lastTokenCount : Nat) (conv : List Message) :
    List Message :=
  if compressionThresholdTokens < lastTokenCount then compressConversation conv else conv

-- ==================== summarizer (summarizer.ts) ====================

/-- JavaScript truthy read `args[key]` inside a `||` chain: an empty string is
falsy and falls through. -/
def truthyArg (args : Args) (key : String) : Option String :=
  match getArg args key with
  | some v => if v = "" then none else some v
  | none => none

/-- One `fallbackSummary` line for a recorded functionCall, when its name is
one of the three tracked tools: `- name: ${args.path || args.command || "completed"}`. -/
def fallbackItem (fc : FunCall) : Option String :=
  if fc.name = "write_file" ∨ fc.name = "create_directory" ∨ fc.name = "exec_command" then
    some ("- " ++ fc.name ++ ": " ++
      ((truthyArg fc.args "path").getD ((truthyArg fc.args "command").getD "completed")))
  else none

/-- The `toolCalls` list accumulated by `fallbackSummary` over the whole
conversation, in encounter order. -/
def fallbackItems (conv : List Message) : List String :=
  conv.foldr (fun msg acc =>
    (msg.parts.filterMap (fun part => part.functionCall.bind fallbackItem)) ++ acc) []

/-- `[...new Set(l)]`: deduplication keeping the first occurrence of each
element, preserving encounter order. -/
def dedupKeepFirst (l : List String) : List String :=
  l.foldl (fun acc x => if x ∈ acc then acc else acc ++ [x]) []

/-- `fallbackSummary`: deduplicate, cap at 30 entries, render. -/
def fallbackSummary (conv : List Message) : String :=
  let uniqueItems := (dedupKeepFirst (fallbackItems conv)).take 30
  "## Progress Summary (fallback)\n\n" ++ String.intercalate "\n" uniqueItems

/-- `generateSummary`: `modelCall` is the summarization request oracle —
`Except.error` models the request throwing, `Except.ok textOpt` a response
whose first-part text is `textOpt` (none models a missing text field). A
thrown request or an empty summary text falls back to `fallbackSummary`;
the function itself is total, it never propagates a failure. -/
def generateSummary (modelCall : Except String (Option String)) (conv : List Message) :
    String :=
  match modelCall with
  | Except.error _ => fallbackSummary conv
  | Except.ok textOpt =>
      let summary := textOpt.getD ""
      if summary = "" then fallbackSummary conv else summary

-- ==================== token-limit recovery (agent.ts) ====================

/-- `isTokenLimitError`. -/
def isTokenLimitError (e : ApiError) : Bool :=
  strContains (strToLower e.message) "token" ||
  strContains (strToLower e.message) "context length" ||
  strContains (strToLower e.message) "too long" ||
  strContains (strToLower e.message) "maximum context"

def progressHeader : String := "\n\n## Previous Progress:\n"

def continueSuffix : String := "\n\nContinue from where you left off."

/-- The single reseed turn built by `handleTokenLimitExceeded`. -/
def reseedMessage (originalTaskPrompt summary : String) : Message :=
  ⟨Role.user, [{ text := some (originalTaskPrompt ++ progressHeader ++ summary ++ continueSuffix) }]⟩

/-- `handleTokenLimitExceeded`: without an active project path, just compress;
otherwise attempt the summarize-and-reseed path, where `summaryAttempt`
models the try block outcome (`Except.ok summary` when summarization and
persistence succeed, `Except.error` when anything in the block throws) and
the catch degrades to `compressConversation`. -/
def handleTokenLimitExceeded (active : Option String) (originalTaskPrompt : String)
    (summaryAttempt : Except String String) (conv : List Message) : List Message :=
  match active with
  | none => compressConversation conv
  | some _ =>
      match summaryAttempt with
      | Except.ok summary => [reseedMessage originalTaskPrompt summary]
      | Except.error _ => compressConversation conv

/-- The catch branch of one loop iteration: a token-limit-classified error
triggers the heavyweight recovery, any other error is turned into an
explanatory user turn. -/
def handleIterationError (e : ApiError) (active : Option String)
    (originalTaskPrompt : String) (summaryAttempt : Except String String)
    (conv : List Message) : List Message :=
  if isTokenLimitError e then
    handleTokenLimitExceeded active originalTaskPrompt summaryAttempt conv
  else
    conv ++ [⟨Role.user, [{ text := some ("Error: " ++ e.message ++ ". Try a different approach.") }]⟩]

-- ==================== executeTaskLoop ====================

/-- The loop-local mutable state of `executeTaskLoop` together with the agent
fields it touches (conversation, lastTokenCount). -/
structure LoopState where
  conversation : List Message
  isComplete : Bool
  consecutiveEmptyResponses : Nat
  lastTokenCount : Nat
  deriving DecidableEq, Repr

/-- `updateTokenCount`: adopt `usageMetadata.promptTokenCount` when truthy
(present and nonzero), keep the previous count otherwise. -/
def updateTokenCount (lastTokenCount : Nat) (resp : ModelResponse) : Nat :=
  match resp.promptTokenCount with
  | some n => if n = 0 then lastTokenCount else n
  | none => lastTokenCount

/-- The tool-result user-turn part `{ functionResponse: { name, response: { result } } }`. -/
def mkFunctionResponsePart (r : ToolResultEntry) : Part :=
  { functionResponse := some ⟨r.name, r.result⟩ }

def continueNudgeText : String :=
  "Continue with the task. Use tools as needed. When finished, say \"TASK COMPLETE\"."

/-- One successful iteration of `executeTaskLoop` (the try-block body given
the response returned by `callAIWithRetry`): budget check, token-count
update, parse, empty-response accounting, completion-signal detection,
no-tool-call nudging, and tool dispatch with the model/user turn appends.
Also returns the results of the tools this iteration actually executed. -/
def stepIter (tools : List Tool) (active : Option String) (now : Nat)
    (resp : ModelResponse) (st : LoopState) : LoopState × List ToolResultEntry :=
  let conv := checkAndCompressConversation st.lastTokenCount st.conversation
  let tk := updateTokenCount st.lastTokenCount resp
  let pr := parseResponse now resp
  if pr.text = "" ∧ pr.toolCalls = [] then
    let c := st.consecutiveEmptyResponses + 1
    if MAX_EMPTY_RESPONSES ≤ c then
      (⟨conv, true, c, tk⟩, [])
    else
      (⟨conv, st.isComplete, c, tk⟩, [])
  else
    if pr.text ≠ "" ∧ strContains (strToUpper pr.text) completionMarker = true then
      (⟨conv, true, 0, tk⟩, [])
    else if pr.toolCalls = [] then
      if resp.finishReason = some "STOP" then
        (⟨conv, true, 0, tk⟩, [])
      else
        (⟨conv ++ [⟨Role.user, [{ text := some continueNudgeText }]⟩], st.isComplete, 0, tk⟩, [])
    else
      let toolResults := executeTools tools active pr.toolCalls
      let modelParts :=
        if pr.functionResponseParts ≠ [] then pr.functionResponseParts
        else [{ text := some pr.text }]
      (⟨conv ++ [⟨Role.model, modelParts⟩, ⟨Role.user, toolResults.map mkFunctionResponsePart⟩],
        st.isComplete, 0, tk⟩, toolResults)

/-- The `while (!isComplete && iteration < maxIterations)` loop, on the
remaining iteration budget. `clock` is the Date.now() oracle and `respAt`
the provider oracle, both indexed by the number of model calls already made;
the returned Nat is the number of model calls performed. -/
def runLoopFrom (tools : List Tool) (active : Option String) (clock : Nat → Nat)
    (respAt : Nat → ModelResponse) : Nat → Nat → LoopState → Nat × LoopState
  | 0, callsMade, st => (callsMade, st)
  | rem + 1, callsMade, st =>
      if st.isComplete then (callsMade, st)
      else
        runLoopFrom tools active clock respAt rem (callsMade + 1)
          (stepIter tools active (clock callsMade) (respAt callsMade) st).1

/-- `executeTaskLoop` on the success path: run up to `maxIterations`
iterations from a fresh iteration counter. -/
def runTaskLoop (tools : List Tool) (active : Option String) (clock : Nat → Nat)
    (respAt : Nat → ModelResponse) (maxIterations : Nat) (st : LoopState) :
    Nat × LoopState :=
  runLoopFrom tools active clock respAt maxIterations 0 st

-- ==================== concrete sample values ====================

def sampleArgs : Args := [("path", "src/app/page.tsx"), ("cwd", "/tmp/attacker")]

def sampleTool : Tool :=
  ⟨"write_file", "Write a file to disk",
    fun args => Except.ok
      ("wrote " ++ ((getArg args "path").getD "") ++ " in " ++ ((getArg args "cwd").getD ""))⟩

def failingTool : Tool :=
  ⟨"exec_command", "Run a shell command", fun _ => Except.error "spawn failed"⟩

def sampleCallPart : Part := { functionCall := some ⟨"write_file", sampleArgs⟩ }

def sampleToolResp : ModelResponse :=
  ⟨[{ text := some "Creating the page" }, sampleCallPart,
    { functionCall := some ⟨"exec_command", [("command", "pnpm install"), ("cwd", "/tmp/attacker")]⟩ }],
   none, some 1200⟩

def emptyResp : ModelResponse := ⟨[], none, none⟩

def busyResp : ModelResponse := ⟨[{ text := some "Scaffolding the next route" }], none, none⟩

def altOracle (k : Nat) : ModelResponse := if k % 2 = 0 then emptyResp else busyResp

def doneResp : ModelResponse :=
  ⟨[{ text := some "All done. TASK COMPLETE" }], some "STOP", some 900⟩

def c6Oracle (k : Nat) : ModelResponse := if k = 0 then busyResp else doneResp

def markerWithToolsResp : ModelResponse :=
  ⟨[{ text := some "TASK COMPLETE" }, sampleCallPart], none, none⟩

def freshState : LoopState :=
  ⟨[⟨Role.user, [{ text := some "Build a blog app" }]⟩], false, 0, 0⟩

def longConv : List Message :=
  (List.range 15).map (fun i => ⟨Role.user, [{ text := some (toString i) }]⟩)

def fallbackConv : List Message :=
  [⟨Role.model,
    [{ functionCall := some ⟨"write_file", [("path", "a.ts")] ⟩ },
     { functionCall := some ⟨"exec_command", [("command", "pnpm i")] ⟩ },
     { functionCall := some ⟨"write_file", [("path", "a.ts")] ⟩ },
     { functionCall := some ⟨"read_file", [("path", "b.ts")] ⟩ }]⟩]

def minimalCall : ToolCall := ⟨"call_0_0", "read_file", [("path", "README.md")]⟩

def retryableErr : ApiError := ⟨"503 Service Unavailable", "\x7b\x7d"⟩

def fatalErr : ApiError := ⟨"invalid argument", "\x7b\x7d"⟩

def tokenLimitErr : ApiError := ⟨"input token count exceeds the maximum", "\x7b\x7d"⟩

-- ==================== lemmas: string containment ====================

theorem charsStart_iff : ∀ p l : List Char, charsStart p l = true ↔ p <+: l
  | [], l => by simp [charsStart]
  | a :: as, [] => by simp [charsStart]
  | a :: as, b :: bs => by
      simp [charsStart, Bool.and_eq_true, beq_iff_eq, charsStart_iff as bs,
        List.cons_prefix_cons]

theorem charsContain_iff : ∀ (p l : List Char), charsContain p l = true ↔ p <:+: l
  | p, [] => by simp [charsContain, charsStart_iff, List.infix_nil, List.prefix_nil]
  | p, c :: cs => by
      simp [charsContain, Bool.or_eq_true, charsStart_iff, charsContain_iff p cs,
        List.infix_cons_iff]

theorem strContains_iff (s pat : String) :
    strContains s pat = true ↔ pat.data <:+: s.data := by
  simpa [strContains] using charsContain_iff pat.data s.data

theorem strContains_self (a : String) : strContains a a = true :=
  (strContains_iff a a).mpr List.infix_rfl

theorem strContains_append_left (a b pat : String) (h : strContains a pat = true) :
    strContains (a ++ b) pat = true := by
  rw [strContains_iff] at h ⊢
  have hd : (a ++ b).data = a.data ++ b.data := rfl
  rw [hd]
  exact h.trans (List.prefix_append a.data b.data).isInfix

theorem strContains_append_right (a b pat : String) (h : strContains b pat = true) :
    strContains (a ++ b) pat = true := by
  rw [strContains_iff] at h ⊢
  have hd : (a ++ b).data = a.data ++ b.data := rfl
  rw [hd]
  exact h.trans (List.suffix_append a.data b.data).isInfix

-- ==================== lemmas: argument objects ====================

theorem setIfPresent_cons (k1 w : String) (rest : Args) (k v : String) :
    setIfPresent ((k1, w) :: rest) k v =
      (if k1 = k then (k1, v) else (k1, w)) :: setIfPresent rest k v := rfl

theorem getArg_set_self : ∀ (args : Args) (k v : String),
    getArg (setIfPresent args k v) k = (getArg args k).map (fun _ => v)
  | [], _, _ => rfl
  | (k1, w) :: rest, k, v => by
      rw [setIfPresent_cons]
      by_cases h : k1 = k
      · subst h; rw [if_pos rfl]; simp [getArg]
      · rw [if_neg h]
        simp [getArg, h, getArg_set_self rest k v]

theorem getArg_set_ne : ∀ (args : Args) (k q v : String), q ≠ k →
    getArg (setIfPresent args k v) q = getArg args q
  | [], _, _, _, _ => rfl
  | (k1, w) :: rest, k, q, v, hqk => by
      rw [setIfPresent_cons]
      by_cases h : k1 = k
      · subst h
        have hne : k1 ≠ q := fun hc => hqk hc.symm
        rw [if_pos rfl]
        simp [getArg, hne, getArg_set_ne rest k1 q v hqk]
      · rw [if_neg h]
        by_cases h2 : k1 = q
        · subst h2; simp [getArg]
        · simp [getArg, h2, getArg_set_ne rest k q v hqk]

theorem setIfPresent_absent : ∀ (args : Args) (k v : String),
    getArg args k = none → setIfPresent args k v = args
  | [], _, _, _ => rfl
  | (k1, w) :: rest, k, v, h => by
      by_cases h1 : k1 = k
      · simp [getArg, h1] at h
      · simp only [getArg, h1, if_false, if_neg, not_false_iff] at h
        rw [setIfPresent_cons, if_neg h1, setIfPresent_absent rest k v h]

theorem keys_setIfPresent : ∀ (args : Args) (k v : String),
    (setIfPresent args k v).map Prod.fst = args.map Prod.fst
  | [], _, _ => rfl
  | (k1, w) :: rest, k, v => by
      rw [setIfPresent_cons]
      by_cases h : k1 = k <;> simp [h, keys_setIfPresent rest k v]

-- ==================== lemmas: parseResponse ====================

theorem parseParts_len : ∀ (now k : Nat) (parts : List Part),
    (parseParts now k parts).2.1.length = (parseParts now k parts).2.2.length
  | _, _, [] => rfl
  | now, k, part :: rest => by
      cases hfc : part.functionCall <;>
        simp [parseParts, hfc, parseParts_len now k rest, parseParts_len now (k + 1) rest]

theorem parse_functionResponseParts_ne (now : Nat) (resp : ModelResponse)
    (h : (parseResponse now resp).toolCalls ≠ []) :
    (parseResponse now resp).functionResponseParts ≠ [] := by
  intro hf
  apply h
  have hlen := parseParts_len now 0 resp.parts
  have h2 : (parseResponse now resp).functionResponseParts =
      (parseParts now 0 resp.parts).2.2 := rfl
  have h1 : (parseResponse now resp).toolCalls = (parseParts now 0 resp.parts).2.1 := rfl
  rw [h2] at hf
  rw [h1, ← List.length_eq_zero, hlen, hf]
  rfl

-- ==================== lemmas: executeTools and scheduling ====================

theorem prepareCall_name (active : Option String) (c : ToolCall) :
    (prepareCall active c).name = c.name := by
  cases active <;> rfl

theorem dispatchCall_name (tools : List Tool) (c : ToolCall) :
    (dispatchCall tools c).name = c.name := by
  unfold dispatchCall
  split
  · rfl
  · split <;> rfl

theorem executeTools_length (tools : List Tool) (active : Option String)
    (calls : List ToolCall) : (executeTools tools active calls).length = calls.length := by
  simp [executeTools]

theorem executeTools_getElem? (tools : List Tool) (active : Option String)
    (calls : List ToolCall) (i : Nat) :
    (executeTools tools active calls)[i]? =
      (calls[i]?).map (fun c => dispatchCall tools (prepareCall active c)) := by
  simp [executeTools, List.getElem?_map, Option.map_map]
  rfl

theorem executeTools_names (tools : List Tool) (active : Option String)
    (calls : List ToolCall) (i : Nat) :
    ((executeTools tools active calls)[i]?).map ToolResultEntry.name =
      (calls[i]?).map ToolCall.name := by
  rw [executeTools_getElem?]
  cases calls[i]? with
  | none => rfl
  | some c => simp [dispatchCall_name, prepareCall_name]

theorem lookupSlot_scheduledRun (tools : List Tool) (active : Option String)
    (calls : List ToolCall) :
    ∀ (order : List Nat) (i : Nat) (c : ToolCall), i ∈ order → calls[i]? = some c →
      lookupSlot i (scheduledRun tools active calls order) =
        some (dispatchCall tools (prepareCall active c))
  | [], i, c, hmem, _ => absurd hmem (List.not_mem_nil i)
  | j :: rest, i, c, hmem, hget => by
      cases hj : calls[j]? with
      | none =>
          have hij : i ≠ j := fun h => by rw [h, hj] at hget; exact Option.noConfusion hget
          have hmem2 : i ∈ rest := by
            cases List.mem_cons.mp hmem with
            | inl h => exact absurd h hij
            | inr h => exact h
          rw [show scheduledRun tools active calls (j :: rest) =
              scheduledRun tools active calls rest by
            simp [scheduledRun, List.filterMap_cons, hj]]
          exact lookupSlot_scheduledRun tools active calls rest i c hmem2 hget
      | some cj =>
          rw [show scheduledRun tools active calls (j :: rest) =
              (j, dispatchCall tools (prepareCall active cj)) ::
                scheduledRun tools active calls rest by
            simp [scheduledRun, List.filterMap_cons, hj]]
          by_cases hij : j = i
          · subst hij
            rw [hj] at hget
            cases hget
            simp [lookupSlot]
          · rw [show lookupSlot i ((j, dispatchCall tools (prepareCall active cj)) ::
                scheduledRun tools active calls rest) =
                lookupSlot i (scheduledRun tools active calls rest) by
              simp [lookupSlot, hij]]
            have hmem2 : i ∈ rest := by
              cases List.mem_cons.mp hmem with
              | inl h => exact absurd h.symm hij
              | inr h => exact h
            exact lookupSlot_scheduledRun tools active calls rest i c hmem2 hget

theorem gather_scheduledRun (tools : List Tool) (active : Option String)
    (calls : List ToolCall) (order : List Nat)
    (h : ∀ i, i < calls.length → i ∈ order) :
    gatherByCallOrder calls.length (scheduledRun tools active calls order) =
      (executeTools tools active calls).map some := by
  apply List.ext_getElem?
  intro n
  by_cases hn : n < calls.length
  · have hrange : (List.range calls.length)[n]? = some n := by
      simp [List.getElem?_range hn]
    have hc : calls[n]? = some calls[n] := List.getElem?_eq_getElem hn
    have hlook := lookupSlot_scheduledRun tools active calls order n calls[n] (h n hn) hc
    simp [gatherByCallOrder, hrange, hlook, executeTools_getElem?, hc]
  · have h1 : (List.range calls.length)[n]? = none := by
      simp [List.getElem?_eq_none, Nat.le_of_not_lt hn]
    have h2 : (executeTools tools active calls)[n]? = none := by
      rw [List.getElem?_eq_none (by rw [executeTools_length]; exact Nat.le_of_not_lt hn)]
    simp [gatherByCallOrder, h1, h2]

-- ==================== lemmas: loop step shapes ====================

theorem stepIter_empty (tools : List Tool) (active : Option String) (now : Nat)
    (resp : ModelResponse) (st : LoopState)
    (ht : (parseResponse now resp).text = "")
    (hc : (parseResponse now resp).toolCalls = []) :
    stepIter tools active now resp st =
      (⟨checkAndCompressConversation st.lastTokenCount st.conversation,
        if MAX_EMPTY_RESPONSES ≤ st.consecutiveEmptyResponses + 1 then true else st.isComplete,
        st.consecutiveEmptyResponses + 1,
        updateTokenCount st.lastTokenCount resp⟩, []) := by
  rw [stepIter, if_pos ⟨ht, hc⟩]
  by_cases h : MAX_EMPTY_RESPONSES ≤ st.consecutiveEmptyResponses + 1
  · rw [if_pos h, if_pos h]
  · rw [if_neg h, if_neg h]

theorem stepIter_marker (tools : List Tool) (active : Option String) (now : Nat)
    (resp : ModelResponse) (st : LoopState)
    (ht : (parseResponse now resp).text ≠ "")
    (hm : strContains (strToUpper (parseResponse now resp).text) completionMarker = true) :
    stepIter tools active now resp st =
      (⟨checkAndCompressConversation st.lastTokenCount st.conversation, true, 0,
        updateTokenCount st.lastTokenCount resp⟩, []) := by
  rw [stepIter, if_neg (fun h => ht h.1), if_pos ⟨ht, hm⟩]

theorem stepIter_dispatch (tools : List Tool) (active : Option String) (now : Nat)
    (resp : ModelResponse) (st : LoopState)
    (hK : (parseResponse now resp).toolCalls ≠ [])
    (hnm : ¬((parseResponse now resp).text ≠ "" ∧
        strContains (strToUpper (parseResponse now resp).text) completionMarker = true)) :
    stepIter tools active now resp st =
      (⟨checkAndCompressConversation st.lastTokenCount st.conversation ++
          [⟨Role.model, (parseResponse now resp).functionResponseParts⟩,
           ⟨Role.user, (executeTools tools active (parseResponse now resp).toolCalls).map
              mkFunctionResponsePart⟩],
        st.isComplete, 0, updateTokenCount st.lastTokenCount resp⟩,
       executeTools tools active (parseResponse now resp).toolCalls) := by
  rw [stepIter, if_neg (fun h => hK h.2), if_neg hnm, if_neg hK,
    if_pos (parse_functionResponseParts_ne now resp hK)]

theorem stepIter_counter_reset (tools : List Tool) (active : Option String) (now : Nat)
    (resp : ModelResponse) (st : LoopState)
    (h : ¬((parseResponse now resp).text = "" ∧ (parseResponse now resp).toolCalls = [])) :
    (stepIter tools active now resp st).1.consecutiveEmptyResponses = 0 := by
  rw [stepIter, if_neg h]
  split
  · rfl
  · split
    · split <;> rfl
    · split <;> rfl

theorem runLoopFrom_of_complete (tools : List Tool) (active : Option String)
    (clock : Nat → Nat) (respAt : Nat → ModelResponse) :
    ∀ (rem callsMade : Nat) (st : LoopState), st.isComplete = true →
      runLoopFrom tools active clock respAt rem callsMade st = (callsMade, st)
  | 0, _, _, _ => rfl
  | rem + 1, callsMade, st, h => by simp [runLoopFrom, h]

-- ==================== lemmas: Set-style deduplication ====================

theorem dedupStep_eq (acc : List String) (y : String) :
    (fun (acc : List String) (x : String) => if x ∈ acc then acc else acc ++ [x]) acc y =
      if y ∈ acc then acc else acc ++ [y] := rfl

theorem mem_dedupStep (acc : List String) (y : String) :
    y ∈ (if y ∈ acc then acc else acc ++ [y]) := by
  by_cases hy : y ∈ acc
  · rw [if_pos hy]; exact hy
  · rw [if_neg hy]; exact List.mem_append_right acc (by simp)

theorem mem_dedupStep_of_mem (acc : List String) (x y : String) (h : x ∈ acc) :
    x ∈ (if y ∈ acc then acc else acc ++ [y]) := by
  by_cases hy : y ∈ acc
  · rw [if_pos hy]; exact h
  · rw [if_neg hy]; exact List.mem_append_left [y] h

theorem foldlDedup_preserve :
    ∀ (l acc : List String) (x : String), x ∈ acc →
      x ∈ l.foldl (fun acc x => if x ∈ acc then acc else acc ++ [x]) acc
  | [], _, _, h => h
  | y :: rest, acc, x, h => by
      rw [List.foldl_cons]
      exact foldlDedup_preserve rest _ x (mem_dedupStep_of_mem acc x y h)

theorem foldlDedup_mem :
    ∀ (l acc : List String) (x : String), x ∈ l →
      x ∈ l.foldl (fun acc x => if x ∈ acc then acc else acc ++ [x]) acc
  | [], _, x, h => absurd h (List.not_mem_nil x)
  | y :: rest, acc, x, h => by
      rw [List.foldl_cons]
      rcases List.mem_cons.mp h with h2 | h2
      · subst h2
        exact foldlDedup_preserve rest _ x (mem_dedupStep acc x)
      · exact foldlDedup_mem rest _ x h2

theorem foldlDedup_mem_rev :
    ∀ (l acc : List String) (x : String),
      x ∈ l.foldl (fun acc x => if x ∈ acc then acc else acc ++ [x]) acc →
        x ∈ acc ∨ x ∈ l
  | [], _, _, h => Or.inl h
  | y :: rest, acc, x, h => by
      rw [List.foldl_cons] at h
      rcases foldlDedup_mem_rev rest _ x h with h2 | h2
      · by_cases hy : y ∈ acc
        · rw [if_pos hy] at h2
          exact Or.inl h2
        · rw [if_neg hy] at h2
          rcases List.mem_append.mp h2 with h3 | h3
          · exact Or.inl h3
          · simp only [List.mem_singleton] at h3
            subst h3
            exact Or.inr (List.mem_cons_self x rest)
      · exact Or.inr (List.mem_cons_of_mem y h2)

theorem foldlDedup_nodup :
    ∀ (l acc : List String), acc.Nodup →
      (l.foldl (fun acc x => if x ∈ acc then acc else acc ++ [x]) acc).Nodup
  | [], _, h => h
  | y :: rest, acc, h => by
      rw [List.foldl_cons]
      apply foldlDedup_nodup rest
      by_cases hy : y ∈ acc
      · rw [if_pos hy]; exact h
      · rw [if_neg hy]
        simp [List.nodup_append, h, hy]

theorem runLoopFrom_succ_not_complete (tools : List Tool) (active : Option String)
    (clock : Nat → Nat) (respAt : Nat → ModelResponse) (rem callsMade : Nat)
    (st : LoopState) (h : st.isComplete = false) :
    runLoopFrom tools active clock respAt (rem + 1) callsMade st =
      runLoopFrom tools active clock respAt rem (callsMade + 1)
        (stepIter tools active (clock callsMade) (respAt callsMade) st).1 := by
  simp [runLoopFrom, h]

-- ==================== claim theorems ====================

/-- Claim C1: for every model response carrying at least one tool call that the
loop dispatches (no completion marker in its text), the iteration appends
exactly one model turn holding the raw function-call parts and then exactly one
user turn holding one functionResponse result per call; the result list has one
entry per call with the matching tool name, in call-issue order, and a
concurrent execution completing in any order gathers back to exactly the same
call-ordered result list. -/
theorem c1_call_response_pairing (tools : List Tool) (active : Option String) (now : Nat)
    (resp : ModelResponse) (st : LoopState)
    (hK : (parseResponse now resp).toolCalls ≠ [])
    (hnm : ¬((parseResponse now resp).text ≠ "" ∧
        strContains (strToUpper (parseResponse now resp).text) completionMarker = true)) :
    (stepIter tools active now resp st).1.conversation =
        checkAndCompressConversation st.lastTokenCount st.conversation ++
          [⟨Role.model, (parseResponse now resp).functionResponseParts⟩,
           ⟨Role.user, (executeTools tools active (parseResponse now resp).toolCalls).map
              mkFunctionResponsePart⟩]
  ∧ (stepIter tools active now resp st).2 =
      executeTools tools active (parseResponse now resp).toolCalls
  ∧ (executeTools tools active (parseResponse now resp).toolCalls).length =
      (parseResponse now resp).toolCalls.length
  ∧ (∀ i : Nat, ((executeTools tools active (parseResponse now resp).toolCalls)[i]?).map
        ToolResultEntry.name = (((parseResponse now resp).toolCalls)[i]?).map ToolCall.name)
  ∧ (∀ order : List Nat, (∀ i, i < (parseResponse now resp).toolCalls.length → i ∈ order) →
        gatherByCallOrder (parseResponse now resp).toolCalls.length
            (scheduledRun tools active (parseResponse now resp).toolCalls order) =
          (executeTools tools active (parseResponse now resp).toolCalls).map some) := by
  have hstep := stepIter_dispatch tools active now resp st hK hnm
  exact ⟨by rw [hstep], by rw [hstep], executeTools_length tools active _,
    executeTools_names tools active _,
    fun order ho => gather_scheduledRun tools active _ order ho⟩

/-- Witness for C1: a concrete response with two tool calls dispatched against
a two-tool registry; execution completing in reversed order `[1, 0]` still
gathers to the call-ordered result list. -/
theorem c1_call_response_pairing_witness :
    (parseResponse 3 sampleToolResp).toolCalls ≠ [] ∧
    (stepIter [sampleTool, failingTool] (some "/work/project") 3 sampleToolResp freshState).2 =
      executeTools [sampleTool, failingTool] (some "/work/project")
        (parseResponse 3 sampleToolResp).toolCalls ∧
    gatherByCallOrder (parseResponse 3 sampleToolResp).toolCalls.length
        (scheduledRun [sampleTool, failingTool] (some "/work/project")
          (parseResponse 3 sampleToolResp).toolCalls [1, 0]) =
      (executeTools [sampleTool, failingTool] (some "/work/project")
        (parseResponse 3 sampleToolResp).toolCalls).map some := by
  have h := c1_call_response_pairing [sampleTool, failingTool] (some "/work/project") 3
    sampleToolResp freshState (by decide) (by decide)
  exact ⟨by decide, h.2.1, h.2.2.2.2 [1, 0] (by decide)⟩

/-- Claim C2: with an active project path, a tool-call argument named `cwd`
(and likewise `projectPath`), when present, is overwritten with the active
project path during call preparation, whatever value the model supplied, and
`executeTools` dispatches exactly the prepared calls. -/
theorem c2_path_pinning (p v : String) (call : ToolCall) (tools : List Tool)
    (hcwd : getArg call.arguments "cwd" = some v) :
    getArg (prepareCall (some p) call).arguments "cwd" = some p
  ∧ (∀ w, getArg call.arguments "projectPath" = some w →
        getArg (prepareCall (some p) call).arguments "projectPath" = some p)
  ∧ (∀ calls : List ToolCall, executeTools tools (some p) calls =
        (calls.map (prepareCall (some p))).map (dispatchCall tools)) := by
  refine ⟨?_, ?_, fun _ => rfl⟩
  · show getArg (setIfPresent (setIfPresent call.arguments "cwd" p) "projectPath" p) "cwd" =
      some p
    rw [getArg_set_ne _ _ _ _ (by decide), getArg_set_self, hcwd]
    rfl
  · intro w hw
    show getArg (setIfPresent (setIfPresent call.arguments "cwd" p) "projectPath" p)
      "projectPath" = some p
    rw [getArg_set_self, getArg_set_ne _ _ _ _ (by decide), hw]
    rfl

/-- Witness for C2: `arguments.cwd = "/tmp/attacker"` is overwritten with the
active working directory `"/work/project"`. -/
theorem c2_path_pinning_witness :
    getArg sampleArgs "cwd" = some "/tmp/attacker" ∧
    getArg (prepareCall (some "/work/project")
      ⟨"call_1_0", "write_file", sampleArgs⟩).arguments "cwd" = some "/work/project" :=
  ⟨rfl, (c2_path_pinning "/work/project" "/tmp/attacker"
    ⟨"call_1_0", "write_file", sampleArgs⟩ [] rfl).1⟩

/-- Claim C3: transient-marker errors are retried up to the fixed ceiling of 5
attempts, the Nth backoff sleep is 2000ms * 2^(N-1), exhausting all attempts
raises the last observed error, and a non-matching error propagates
immediately with zero additional attempts regardless of the remaining attempt
budget. -/
theorem c3_retry_backoff :
    (∀ (callAI : Nat → Except ApiError ModelResponse) (errAt : Nat → ApiError),
        (∀ k, callAI k = Except.error (errAt k)) →
        (∀ k, isRetryableError (errAt k) = true) →
        callAIWithRetry callAI = ⟨Except.error (errAt 5), 5, [2000, 4000, 8000, 16000]⟩)
  ∧ (∀ N : Nat, 1 ≤ N → N ≤ 4 →
        ([2000, 4000, 8000, 16000] : List Nat)[N - 1]? =
          some (INITIAL_RETRY_DELAY_MS * 2 ^ (N - 1)))
  ∧ (∀ (callAI : Nat → Except ApiError ModelResponse) (attempt : Nat) (rest : List Nat)
        (lastError : Option ApiError) (delays : List Nat) (made : Nat) (e : ApiError),
        callAI attempt = Except.error e → isRetryableError e = false →
        retryLoop callAI (attempt :: rest) lastError delays made =
          ⟨Except.error e, made + 1, delays⟩)
  ∧ (∀ (callAI : Nat → Except ApiError ModelResponse) (e : ApiError),
        callAI 1 = Except.error e → isRetryableError e = false →
        callAIWithRetry callAI = ⟨Except.error e, 1, []⟩) := by
  have hrange : List.range' 1 MAX_API_RETRIES = [1, 2, 3, 4, 5] := rfl
  refine ⟨?_, ?_, ?_, ?_⟩
  · intro callAI errAt herr hret
    rw [callAIWithRetry, hrange]
    simp [retryLoop, herr 1, herr 2, herr 3, herr 4, herr 5,
      hret 1, hret 2, hret 3, hret 4, hret 5, MAX_API_RETRIES, INITIAL_RETRY_DELAY_MS]
  · intro N h1 h4
    interval_cases N <;> rfl
  · intro callAI attempt rest lastError delays made e hcall hnr
    simp [retryLoop, hcall, hnr]
  · intro callAI e hcall hnr
    rw [callAIWithRetry, hrange]
    simp [retryLoop, hcall, hnr]

/-- Witness for C3: an always-503 oracle makes exactly 5 attempts with backoff
2s, 4s, 8s, 16s and raises the last error; a fatal error stops after one
attempt with no backoff sleep. -/
theorem c3_retry_backoff_witness :
    isRetryableError retryableErr = true ∧
    isRetryableError fatalErr = false ∧
    callAIWithRetry (fun _ => Except.error retryableErr) =
      ⟨Except.error retryableErr, 5, [2000, 4000, 8000, 16000]⟩ ∧
    callAIWithRetry (fun _ => Except.error fatalErr) = ⟨Except.error fatalErr, 1, []⟩ := by
  have hr : isRetryableError retryableErr = true := by decide
  have hf : isRetryableError fatalErr = false := by decide
  refine ⟨hr, hf, ?_, ?_⟩
  · exact c3_retry_backoff.1 (fun _ => Except.error retryableErr) (fun _ => retryableErr)
      (fun _ => rfl) (fun _ => hr)
  · exact c3_retry_backoff.2.2.2 (fun _ => Except.error fatalErr) fatalErr rfl hf

/-- Claim C4: the pre-call budget check leaves the conversation unchanged when
the last token count does not exceed the 70 percent threshold; above the
threshold with more than KEEP_RECENT_MESSAGES + 1 = 11 turns it keeps exactly
11 turns — the original first turn followed by the original last 10 turns in
order; with at most 11 turns it is a no-op. -/
theorem c4_compaction_shape :
    (∀ (tk : Nat) (conv : List Message), tk ≤ compressionThresholdTokens →
        checkAndCompressConversation tk conv = conv)
  ∧ (∀ (tk : Nat) (conv : List Message), compressionThresholdTokens < tk →
        KEEP_RECENT_MESSAGES + 1 < conv.length →
        (checkAndCompressConversation tk conv).length = KEEP_RECENT_MESSAGES + 1 ∧
        (checkAndCompressConversation tk conv).head? = conv.head? ∧
        (checkAndCompressConversation tk conv).tail =
          conv.drop (conv.length - KEEP_RECENT_MESSAGES))
  ∧ (∀ (tk : Nat) (conv : List Message), conv.length ≤ KEEP_RECENT_MESSAGES + 1 →
        checkAndCompressConversation tk conv = conv) := by
  refine ⟨?_, ?_, ?_⟩
  · intro tk conv h
    rw [checkAndCompressConversation, if_neg (Nat.not_lt.mpr h)]
  · intro tk conv h hm
    rw [checkAndCompressConversation, if_pos h, compressConversation.eq_def,
      if_neg (Nat.not_le.mpr hm)]
    cases conv with
    | nil => simp at hm
    | cons first rest =>
        refine ⟨?_, rfl, rfl⟩
        simp only [List.length_cons, List.length_drop, KEEP_RECENT_MESSAGES] at hm ⊢
        omega
  · intro tk conv h
    rw [checkAndCompressConversation]
    split
    · rw [compressConversation.eq_def, if_pos h]
    · rfl

/-- Witness for C4: a 15-turn conversation at 800000 tokens compacts to 11
turns; at 500 tokens it is untouched. -/
theorem c4_compaction_shape_witness :
    compressionThresholdTokens < 800000 ∧
    KEEP_RECENT_MESSAGES + 1 < longConv.length ∧
    (checkAndCompressConversation 800000 longConv).length = KEEP_RECENT_MESSAGES + 1 ∧
    checkAndCompressConversation 500 longConv = longConv := by
  refine ⟨by decide, by decide, ?_, ?_⟩
  · exact (c4_compaction_shape.2.1 800000 longConv (by decide) (by decide)).1
  · exact c4_compaction_shape.1 500 longConv (by decide)

/-- Claim C5: an empty response (no text, no tool calls) increments the
consecutive-empty counter and appends nothing; reaching the ceiling of 3 marks
the loop complete; any non-empty response resets the counter to zero; the
budget check never appends; a triple-empty oracle ends the loop after exactly
3 calls, and an alternating empty/non-empty oracle runs the full 8 iterations
without terminating. -/
theorem c5_empty_responses :
    (∀ (tools : List Tool) (active : Option String) (now : Nat) (resp : ModelResponse)
        (st : LoopState),
        (parseResponse now resp).text = "" → (parseResponse now resp).toolCalls = [] →
        st.consecutiveEmptyResponses + 1 < MAX_EMPTY_RESPONSES →
        stepIter tools active now resp st =
          (⟨checkAndCompressConversation st.lastTokenCount st.conversation, st.isComplete,
            st.consecutiveEmptyResponses + 1, updateTokenCount st.lastTokenCount resp⟩, []))
  ∧ (∀ (tools : List Tool) (active : Option String) (now : Nat) (resp : ModelResponse)
        (st : LoopState),
        (parseResponse now resp).text = "" → (parseResponse now resp).toolCalls = [] →
        MAX_EMPTY_RESPONSES ≤ st.consecutiveEmptyResponses + 1 →
        stepIter tools active now resp st =
          (⟨checkAndCompressConversation st.lastTokenCount st.conversation, true,
            st.consecutiveEmptyResponses + 1, updateTokenCount st.lastTokenCount resp⟩, []))
  ∧ (∀ (tools : List Tool) (active : Option String) (now : Nat) (resp : ModelResponse)
        (st : LoopState),
        ¬((parseResponse now resp).text = "" ∧ (parseResponse now resp).toolCalls = []) →
        (stepIter tools active now resp st).1.consecutiveEmptyResponses = 0)
  ∧ (∀ (tk : Nat) (conv : List Message),
        (checkAndCompressConversation tk conv).length ≤ conv.length)
  ∧ runTaskLoop [] none (fun _ => 0) (fun _ => emptyResp) 10 freshState =
      (3, ⟨freshState.conversation, true, 3, 0⟩)
  ∧ (runTaskLoop [] none (fun _ => 0) altOracle 8 freshState).1 = 8
  ∧ (runTaskLoop [] none (fun _ => 0) altOracle 8 freshState).2.isComplete = false := by
  refine ⟨?_, ?_, ?_, ?_, by decide, by decide, by decide⟩
  · intro tools active now resp st ht hc hlt
    rw [stepIter_empty tools active now resp st ht hc, if_neg (Nat.not_le.mpr hlt)]
  · intro tools active now resp st ht hc hge
    rw [stepIter_empty tools active now resp st ht hc, if_pos hge]
  · exact stepIter_counter_reset
  · intro tk conv
    rw [checkAndCompressConversation]
    split
    · rw [compressConversation.eq_def]
      split
      · exact Nat.le_refl _
      · next hlen =>
          cases conv with
          | nil => simp
          | cons first rest =>
              simp only [List.length_cons, List.length_drop, KEEP_RECENT_MESSAGES] at hlen ⊢
              omega
    · exact Nat.le_refl _

/-- Witness for C5: one empty response from a fresh state increments the
counter to 1, appends nothing, and does not complete. -/
theorem c5_empty_responses_witness :
    (parseResponse 0 emptyResp).text = "" ∧ (parseResponse 0 emptyResp).toolCalls = [] ∧
    freshState.consecutiveEmptyResponses + 1 < MAX_EMPTY_RESPONSES ∧
    stepIter [] none 0 emptyResp freshState =
      (⟨checkAndCompressConversation freshState.lastTokenCount freshState.conversation,
        freshState.isComplete, freshState.consecutiveEmptyResponses + 1,
        updateTokenCount freshState.lastTokenCount emptyResp⟩, []) :=
  ⟨rfl, rfl, by decide, c5_empty_responses.1 [] none 0 emptyResp freshState rfl rfl (by decide)⟩

/-- Claim C6: a response whose concatenated free text contains the completion
marker case-insensitively marks the loop complete and stops it: with a
non-completing first iteration and such a response on the second model call,
the loop performs exactly 2 model calls for any iteration budget of at least
2 — no third call is issued. -/
theorem c6_completion_signal (tools : List Tool) (active : Option String)
    (clock : Nat → Nat) (respAt : Nat → ModelResponse) (st0 : LoopState) (maxIter : Nat)
    (h0 : st0.isComplete = false)
    (h1 : (stepIter tools active (clock 0) (respAt 0) st0).1.isComplete = false)
    (ht : (parseResponse (clock 1) (respAt 1)).text ≠ "")
    (hm : strContains (strToUpper (parseResponse (clock 1) (respAt 1)).text)
        completionMarker = true)
    (hmax : 2 ≤ maxIter) :
    (runTaskLoop tools active clock respAt maxIter st0).1 = 2
  ∧ (runTaskLoop tools active clock respAt maxIter st0).2.isComplete = true := by
  obtain ⟨k, rfl⟩ : ∃ k, maxIter = k + 1 + 1 := ⟨maxIter - 2, by omega⟩
  rw [runTaskLoop, runLoopFrom_succ_not_complete tools active clock respAt (k + 1) 0 st0 h0]
  norm_num
  rw [runLoopFrom_succ_not_complete tools active clock respAt k 1 _ h1]
  norm_num
  rw [runLoopFrom_of_complete tools active clock respAt k 2 _
    (by rw [stepIter_marker tools active (clock 1) (respAt 1) _ ht hm])]
  exact ⟨rfl, by rw [stepIter_marker tools active (clock 1) (respAt 1) _ ht hm]⟩

/-- Witness for C6: the model returns free text "All done. TASK COMPLETE" with
zero tool calls on iteration 2; the loop ends after exactly 2 calls even with
a budget of 9 iterations. -/
theorem c6_completion_signal_witness :
    (parseResponse 0 (c6Oracle 1)).text = "All done. TASK COMPLETE" ∧
    (parseResponse 0 (c6Oracle 1)).toolCalls = [] ∧
    (runTaskLoop [] none (fun _ => 0) c6Oracle 9 freshState).1 = 2 ∧
    (runTaskLoop [] none (fun _ => 0) c6Oracle 9 freshState).2.isComplete = true := by
  have h := c6_completion_signal [] none (fun _ => 0) c6Oracle freshState 9 rfl
    (by decide) (by decide) (by decide) (by decide)
  exact ⟨rfl, rfl, h.1, h.2⟩

/-- Claim C7: handling a token-limit-classified error with an active project
path and a successful summarization leaves the conversation as exactly one
user turn whose text contains, verbatim, the original task prompt, the
generated summary and the instruction "Continue from where you left off." -/
theorem c7_summary_reseed (e : ApiError) (p orig summary : String) (conv : List Message)
    (he : isTokenLimitError e = true) :
    handleIterationError e (some p) orig (Except.ok summary) conv =
      [reseedMessage orig summary]
  ∧ (reseedMessage orig summary).role = Role.user
  ∧ (reseedMessage orig summary).parts =
      [{ text := some (orig ++ progressHeader ++ summary ++ continueSuffix) }]
  ∧ strContains (orig ++ progressHeader ++ summary ++ continueSuffix) orig = true
  ∧ strContains (orig ++ progressHeader ++ summary ++ continueSuffix) summary = true
  ∧ strContains (orig ++ progressHeader ++ summary ++ continueSuffix)
      "Continue from where you left off." = true := by
  refine ⟨?_, rfl, rfl, ?_, ?_, ?_⟩
  · rw [handleIterationError, if_pos he]
    rfl
  · exact strContains_append_left _ _ _ (strContains_append_left _ _ _
      (strContains_append_left _ _ _ (strContains_self orig)))
  · exact strContains_append_left _ _ _
      (strContains_append_right _ _ _ (strContains_self summary))
  · exact strContains_append_right _ _ _ (by decide)

/-- Witness for C7: a concrete token-limit error, project path, prompt and
summary produce the single reseed turn containing the continuation phrase. -/
theorem c7_summary_reseed_witness :
    isTokenLimitError tokenLimitErr = true ∧
    handleIterationError tokenLimitErr (some "/work/project") "Build a blog app"
      (Except.ok "Created pages and schema") [] =
      [reseedMessage "Build a blog app" "Created pages and schema"] ∧
    strContains ("Build a blog app" ++ progressHeader ++ "Created pages and schema" ++
      continueSuffix) "Continue from where you left off." = true := by
  have h := c7_summary_reseed tokenLimitErr "/work/project" "Build a blog app"
    "Created pages and schema" [] (by decide)
  exact ⟨by decide, h.1, h.2.2.2.2.2⟩

/-- Claim C8: generateSummary is total and degrades a failed or empty
summarization call to the heuristic fallback; the fallback is the rendering of
the recorded write_file/create_directory/exec_command argument lines,
deduplicated in first-occurrence order (no duplicates, same membership) and
capped at 30 entries; and an error escaping the heavyweight compaction path,
or a missing project path, degrades to the lightweight truncation. -/
theorem c8_summary_fallback :
    (∀ (conv : List Message) (msg : String),
        generateSummary (Except.error msg) conv = fallbackSummary conv)
  ∧ (∀ conv : List Message, generateSummary (Except.ok none) conv = fallbackSummary conv)
  ∧ (∀ conv : List Message,
        generateSummary (Except.ok (some "")) conv = fallbackSummary conv)
  ∧ (∀ conv : List Message, fallbackSummary conv =
        "## Progress Summary (fallback)\n\n" ++
          String.intercalate "\n" ((dedupKeepFirst (fallbackItems conv)).take 30))
  ∧ (∀ l : List String, (dedupKeepFirst l).Nodup)
  ∧ (∀ (l : List String) (x : String), x ∈ l ↔ x ∈ dedupKeepFirst l)
  ∧ (∀ conv : List Message, ((dedupKeepFirst (fallbackItems conv)).take 30).length ≤ 30)
  ∧ (∀ (p orig msg : String) (conv : List Message),
        handleTokenLimitExceeded (some p) orig (Except.error msg) conv =
          compressConversation conv)
  ∧ (∀ (orig : String) (attempt : Except String String) (conv : List Message),
        handleTokenLimitExceeded none orig attempt conv = compressConversation conv) := by
  refine ⟨fun _ _ => rfl, fun _ => rfl, fun _ => rfl, fun _ => rfl, ?_, ?_, ?_,
    fun _ _ _ _ => rfl, fun _ _ _ => rfl⟩
  · intro l
    exact foldlDedup_nodup l [] List.nodup_nil
  · intro l x
    constructor
    · exact foldlDedup_mem l [] x
    · intro h
      rcases foldlDedup_mem_rev l [] x h with h2 | h2
      · exact absurd h2 (List.not_mem_nil x)
      · exact h2
  · intro conv
    exact List.length_take_le 30 _

/-- Witness for C8: a failed summarization call over a conversation with a
duplicated write_file call and an untracked read_file call yields the
deduplicated two-line fallback summary. -/
theorem c8_summary_fallback_witness :
    generateSummary (Except.error "network down") fallbackConv =
      fallbackSummary fallbackConv ∧
    fallbackSummary fallbackConv =
      "## Progress Summary (fallback)\n\n- write_file: a.ts\n- exec_command: pnpm i" ∧
    (dedupKeepFirst (fallbackItems fallbackConv)).Nodup :=
  ⟨c8_summary_fallback.1 fallbackConv "network down", by decide,
    c8_summary_fallback.2.2.2.2.1 (fallbackItems fallbackConv)⟩

/-- Claim C9: a response whose text contains the completion marker and that
also carries tool calls ends the loop with none of those tool calls executed
and nothing appended to the conversation: the completion check preempts tool
dispatch in the same iteration. -/
theorem c9_marker_preempts_dispatch (tools : List Tool) (active : Option String) (now : Nat)
    (resp : ModelResponse) (st : LoopState)
    (ht : (parseResponse now resp).text ≠ "")
    (hm : strContains (strToUpper (parseResponse now resp).text) completionMarker = true)
    (hcalls : (parseResponse now resp).toolCalls ≠ []) :
    (stepIter tools active now resp st).1.isComplete = true
  ∧ (stepIter tools active now resp st).1.conversation =
      checkAndCompressConversation st.lastTokenCount st.conversation
  ∧ (stepIter tools active now resp st).2 = []
  ∧ (∀ (clock : Nat → Nat) (respAt : Nat → ModelResponse) (rem callsMade : Nat),
        runLoopFrom tools active clock respAt rem callsMade
            (stepIter tools active now resp st).1 =
          (callsMade, (stepIter tools active now resp st).1)) := by
  have hstep := stepIter_marker tools active now resp st ht hm
  exact ⟨by rw [hstep], by rw [hstep], by rw [hstep],
    fun clock respAt rem callsMade =>
      runLoopFrom_of_complete tools active clock respAt rem callsMade _ (by rw [hstep])⟩

/-- Witness for C9: a response carrying "TASK COMPLETE" together with a
write_file call terminates the iteration with no tool executed and no turn
appended. -/
theorem c9_marker_preempts_dispatch_witness :
    (parseResponse 0 markerWithToolsResp).toolCalls ≠ [] ∧
    (stepIter [sampleTool] (some "/work/project") 0 markerWithToolsResp
      freshState).1.isComplete = true ∧
    (stepIter [sampleTool] (some "/work/project") 0 markerWithToolsResp freshState).2 = [] := by
  have h := c9_marker_preempts_dispatch [sampleTool] (some "/work/project") 0
    markerWithToolsResp freshState (by decide) (by decide) (by decide)
  exact ⟨by decide, h.1, h.2.2.1⟩

/-- Claim C10: call preparation touches only the `cwd` and `projectPath`
argument keys and only when already present: every other key reads the same,
absent keys stay absent (pinning injects nothing), the key set and the tool
name are unchanged, a call with neither key is passed through identically, and
dispatch runs exactly the prepared call. -/
theorem c10_pinning_frame (active : Option String) (call : ToolCall) (tools : List Tool)
    (k : String) (hk1 : k ≠ "cwd") (hk2 : k ≠ "projectPath") :
    getArg (prepareCall active call).arguments k = getArg call.arguments k
  ∧ (getArg call.arguments "cwd" = none →
      getArg (prepareCall active call).arguments "cwd" = none)
  ∧ (getArg call.arguments "projectPath" = none →
      getArg (prepareCall active call).arguments "projectPath" = none)
  ∧ (prepareCall active call).arguments.map Prod.fst = call.arguments.map Prod.fst
  ∧ (prepareCall active call).name = call.name
  ∧ (getArg call.arguments "cwd" = none → getArg call.arguments "projectPath" = none →
      prepareCall active call = call)
  ∧ executeTools tools active [call] = [dispatchCall tools (prepareCall active call)] := by
  cases active with
  | none => exact ⟨rfl, fun h => h, fun h => h, rfl, rfl, fun _ _ => rfl, rfl⟩
  | some p =>
      refine ⟨?_, ?_, ?_, ?_, rfl, ?_, rfl⟩
      · show getArg (setIfPresent (setIfPresent call.arguments "cwd" p) "projectPath" p) k = _
        rw [getArg_set_ne _ _ _ _ hk2, getArg_set_ne _ _ _ _ hk1]
      · intro h
        show getArg (setIfPresent (setIfPresent call.arguments "cwd" p) "projectPath" p)
          "cwd" = none
        rw [getArg_set_ne _ _ _ _ (by decide), getArg_set_self, h]
        rfl
      · intro h
        show getArg (setIfPresent (setIfPresent call.arguments "cwd" p) "projectPath" p)
          "projectPath" = none
        rw [getArg_set_self, getArg_set_ne _ _ _ _ (by decide), h]
        rfl
      · show (setIfPresent (setIfPresent call.arguments "cwd" p) "projectPath" p).map
          Prod.fst = _
        rw [keys_setIfPresent, keys_setIfPresent]
      · intro h1 h2
        show ({ call with arguments := setIfPresent (setIfPresent call.arguments "cwd" p) "projectPath" p } : ToolCall) = call
        rw [setIfPresent_absent _ _ _ h1, setIfPresent_absent _ _ _ h2]

/-- Witness for C10: a call whose arguments hold only `path` reaches dispatch
unchanged — `path` reads the same and no `cwd` or `projectPath` is injected. -/
theorem c10_pinning_frame_witness :
    ("path" : String) ≠ "cwd" ∧ ("path" : String) ≠ "projectPath" ∧
    getArg (prepareCall (some "/work/project") minimalCall).arguments "path" =
      getArg minimalCall.arguments "path" ∧
    prepareCall (some "/work/project") minimalCall = minimalCall := by
  have h := c10_pinning_frame (some "/work/project") minimalCall [] "path"
    (by decide) (by decide)
  exact ⟨by decide, by decide, h.1, h.2.2.2.2.2.1 rfl rfl⟩

end NAg
